import Mathlib

/-!
# Verification of `sat_pull` satellite-monitoring routines

Shallow embedding of the pure algorithmic core of the repository:

* `src/sat_mon/data/composite.py` — quality-aware Sentinel-2 scene selection
* `src/sat_mon/data/timeseries.py` — field time-series extraction, per-scene NDVI
* `src/sat_mon/processing/indices.py` — safe division for spectral indices
* `src/sat_mon/analysis/field_boundary.py` — boundaries, masks, field statistics
* `src/sat_mon/analysis/phenology.py` — smoothing and growing-season detection

Modelling conventions: machine floats become `ℚ` (or `ℝ` where a square
root or `π` is required); `NaN` becomes `none : Option ℚ`; numpy arrays
become flat lists (row-major) or nested lists where the 2-D structure
matters; Python exceptions become `Except String`; `datetime` values become
whole-day integers (`ℤ`), matching the `.days` granularity the code uses.
-/

namespace SatMon

/-! ## Scene selection (`composite.py`)

`_select_s2_item_with_cloud_threshold` walks a newest-first item list.  For
each item it computes a cloud percentage (reading the SCL band; a read
failure counts as 100 %).  We model an item together with its computed
cloud percentage as a pair `α × ℚ`, which keeps the embedding independent
of the external raster reader while preserving the selection logic exactly.
-/

/-- One iteration step of the Python `for item in items_s2` loop, fused with
the running fallback (`best_item`/`best_cloud`).  The accumulator update
uses a *strict* comparison, exactly as `cloud_pct < best_cloud` does, so the
fallback is the first-encountered minimum.  The loop `break`s as soon as an
item meets the threshold, returning the selection and the fallback tracked
so far. -/
def selectLoop {α : Type} (thr : ℚ) :
    List (α × ℚ) → Option (α × ℚ) → Option (α × ℚ) × Option (α × ℚ)
  | [], best => (none, best)
  | (a, c) :: rest, best =>
    let best' : Option (α × ℚ) :=
      match best with
      | none => some (a, c)
      | some bc => if c < bc.2 then some (a, c) else some bc
    if c ≤ thr then (some (a, c), best') else selectLoop thr rest best'

/-- Embedding of `_select_s2_item_with_cloud_threshold` (`composite.py`).
Returns `(selected, best_overall)`; the Python fallback
`if selected_item is None and best_item is not None: selected_item = best_item`
is the `match` in the second component of the `let`. -/
def select_s2_item_with_cloud_threshold {α : Type}
    (items : List (α × ℚ)) (threshold_pct : ℚ) :
    Option (α × ℚ) × Option (α × ℚ) :=
  let r := selectLoop threshold_pct items none
  match r.1 with
  | some s => (some s, r.2)
  | none => (r.2, r.2)

/-- First-occurrence minimum of the cloud percentages, folding left with a
strict comparison — the reference description of the code's fallback
accumulator. -/
def firstMinAux {α : Type} : List (α × ℚ) → (α × ℚ) → (α × ℚ)
  | [], b => b
  | p :: rest, b => firstMinAux rest (if p.2 < b.2 then p else b)

/-- First-occurrence minimum of a candidate list (none for the empty list). -/
def firstMin {α : Type} : List (α × ℚ) → Option (α × ℚ)
  | [] => none
  | p :: rest => some (firstMinAux rest p)

/-! ## Safe division (`processing/indices.py`, lines 10-12)

`np.divide(a, b, out=np.zeros_like(a), where=b != 0)`: where the
denominator is zero the pre-filled output `0` is kept. -/

/-- Embedding of the `safe_div` helper used by `process_indices`. -/
def safe_div (a b : ℚ) : ℚ := if b ≠ 0 then a / b else 0

/-! ## Field statistics and masking (`analysis/field_boundary.py`)

Arrays are flattened row-major; `none : Option ℚ` models a NaN pixel.
numpy's `data_array[mask]` requires equal shapes (it raises on mismatch),
so theorems about `compute_field_statistics` assume equal lengths; the
embedding itself truncates at the shorter list, which agrees with numpy on
all shape-matched inputs. -/

/-- `band[mask]`: the values at mask-`True` positions, in order. -/
def masked_values {β : Type} (band : List β) (mask : List Bool) : List β :=
  (band.zip mask).filterMap fun p => if p.2 then some p.1 else none

/-- `np.max` of a list (0 for the empty list, which numpy would reject). -/
def listMax (l : List ℚ) : ℚ :=
  match l with
  | [] => 0
  | x :: r => r.foldl max x

/-- `np.min` of a list (0 for the empty list, which numpy would reject). -/
def listMin (l : List ℚ) : ℚ :=
  match l with
  | [] => 0
  | x :: r => r.foldl min x

/-- `np.percentile(v, p)` with the default linear interpolation, for `v`
already sorted ascending and nonempty: the virtual rank is
`p/100 * (n-1)`; the result interpolates between the neighbouring order
statistics.  `np.median` is the `p = 50` case. -/
def percentileSorted (v : List ℚ) (p : ℚ) : ℚ :=
  let n := v.length
  let rank : ℚ := p / 100 * ((n : ℚ) - 1)
  let lo : ℕ := (⌊rank⌋).toNat
  let hi : ℕ := min (lo + 1) (n - 1)
  let frac : ℚ := rank - (lo : ℚ)
  v.getD lo 0 + frac * (v.getD hi 0 - v.getD lo 0)

/-- Result record of `compute_field_statistics`.  `std` needs a real
square root, hence `Option ℝ`; every other numeric field stays rational. -/
structure FieldStats where
  mean : Option ℚ
  std : Option ℝ
  min : Option ℚ
  max : Option ℚ
  median : Option ℚ
  count : ℕ
  percentiles : List (ℚ × ℚ)

/-- Embedding of `compute_field_statistics` (`field_boundary.py`).
Valid pixels are those inside the mask that are not NaN; with zero valid
pixels the function returns the all-`None` record with `count = 0` instead
of raising.  `np.std` is the population standard deviation (`ddof = 0`). -/
noncomputable def compute_field_statistics
    (data_array : List (Option ℚ)) (mask : List Bool)
    (percentiles : List ℚ) : FieldStats :=
  let field_pixels := masked_values data_array mask
  let valid_pixels := field_pixels.filterMap id
  if valid_pixels.length = 0 then
    { mean := none, std := none, min := none, max := none,
      median := none, count := 0, percentiles := [] }
  else
    let n : ℚ := valid_pixels.length
    let mean := valid_pixels.sum / n
    let variance : ℚ := (valid_pixels.map (fun x => (x - mean) ^ 2)).sum / n
    let sorted := valid_pixels.insertionSort (· ≤ ·)
    { mean := some mean,
      std := some (Real.sqrt (variance : ℝ)),
      min := some (listMin valid_pixels),
      max := some (listMax valid_pixels),
      median := some (percentileSorted sorted 50),
      count := valid_pixels.length,
      percentiles := percentiles.map fun p => (p, percentileSorted sorted p) }

/-- The spec's worked statistics example, flattened row-major: a 100×100
array whose rows 0–9 are NaN in columns 0–9 (the 10×10 NaN sub-block) and
valid elsewhere, all other rows valid. -/
def example_data_100x100 : List (Option ℚ) :=
  (List.replicate 10
    (List.replicate 10 (none : Option ℚ) ++ List.replicate 90 (some 1))).flatten
  ++ List.replicate 9000 (some 1)

/-- The matching 100×100 mask: `True` on the 20×20 region rows 0–19 ×
columns 0–19, `False` elsewhere. -/
def example_mask_100x100 : List Bool :=
  (List.replicate 20 (List.replicate 20 true ++ List.replicate 80 false)).flatten
  ++ List.replicate 8000 false

/-- A numpy array as passed to `apply_field_mask`: single-band `H×W` or
multi-band `H×W×C` (innermost list = channels of one pixel). -/
inductive NpArray where
  | d2 : List (List (Option ℚ)) → NpArray
  | d3 : List (List (List (Option ℚ))) → NpArray

/-- `array.shape[:2]` — rows and, from the first row, columns (numpy
arrays are rectangular, which theorems assume explicitly). -/
def NpArray.shape2 : NpArray → ℕ × ℕ
  | .d2 rows => (rows.length, (rows.head?.map List.length).getD 0)
  | .d3 rows => (rows.length, (rows.head?.map List.length).getD 0)

/-- `mask.shape` for a 2-D boolean mask. -/
def maskShape (mask : List (List Bool)) : ℕ × ℕ :=
  (mask.length, (mask.head?.map List.length).getD 0)

/-- Embedding of `apply_field_mask` (`field_boundary.py`).  The source's
nested shape test raises `ValueError` exactly when
`data_array.shape[:2] != mask.shape` (the inner condition repeats the
outer one).  Otherwise it returns a copy with `result[~mask] = fill_value`:
for 3-D data the assignment hits every channel of an outside pixel.  The
Python default `fill_value=np.nan` corresponds to `fill = none`. -/
def apply_field_mask (data_array : NpArray) (mask : List (List Bool))
    (fill_value : Option ℚ) : Except String NpArray :=
  if data_array.shape2 ≠ maskShape mask then
    .error "Shape mismatch"
  else
    match data_array with
    | .d2 rows =>
      .ok (.d2 (List.zipWith
        (fun row mrow => List.zipWith
          (fun v m => if m then v else fill_value) row mrow)
        rows mask))
    | .d3 rows =>
      .ok (.d3 (List.zipWith
        (fun row mrow => List.zipWith
          (fun cell m => if m then cell else cell.map fun _ => fill_value)
          row mrow)
        rows mask))

/-! ## Circular boundaries (`analysis/field_boundary.py`, `create_circular_boundary`) -/

/-- Models the external geometry pipeline of `create_circular_boundary`
(pyproj WGS84→UTM transform, shapely `Point.buffer(radius, resolution=16)`,
reprojection): a closed ring of `4·resolution` segments around the center.
The exact vertex coordinates are produced by libraries outside this
repository; no claim depends on them.  The repository's own arithmetic
(the `properties` dict, in particular `area_ha`) is embedded exactly in
`create_circular_boundary`. -/
noncomputable def circle_ring_wgs84 (center_lat center_lon radius : ℝ)
    (resolution : ℕ) : List (ℝ × ℝ) :=
  (List.range (4 * resolution + 1)).map fun k =>
    (center_lon + radius * Real.cos (2 * Real.pi * k / (4 * resolution)),
     center_lat + radius * Real.sin (2 * Real.pi * k / (4 * resolution)))

/-- The GeoJSON-like dict returned by `create_circular_boundary`:
coordinates ring plus the `properties` entries. -/
structure CircularBoundary where
  coordinates : List (ℝ × ℝ)
  center_lat : ℝ
  center_lon : ℝ
  radius_m : ℝ
  area_ha : ℝ

/-- Embedding of `create_circular_boundary` (`field_boundary.py`).  The
source performs no input validation and contains no `raise`: every input,
including `radius_meters ≤ 0`, flows through the buffer pipeline and
returns a dict (for nonpositive radii shapely yields an empty polygon, so
the ring degenerates, but no exception occurs).  The `Except` result type
gives the claimed validation failure room to appear; the embedding shows
every path returns `.ok`.  `area_ha` is the source's analytic
`(np.pi * radius_meters**2) / 10000.0`, computed without consulting the
ring; the shapely `resolution` argument (16 at the call site) is exposed
as a parameter to make that independence expressible. -/
noncomputable def create_circular_boundary
    (center_lat center_lon radius_meters : ℝ) (resolution : ℕ) :
    Except String CircularBoundary :=
  Except.ok
    { coordinates := circle_ring_wgs84 center_lat center_lon radius_meters resolution
      center_lat := center_lat
      center_lon := center_lon
      radius_m := radius_meters
      area_ha := Real.pi * radius_meters ^ 2 / 10000 }

/-! ## Time-series extraction (`data/timeseries.py`)

Raster reads (`read_band`) are external I/O; a scene is modelled by the
values those reads produce on the analysis grid.  Scenes whose reads fail
are skipped by the source's `try/except` and are outside the model.
`TimeseriesPoint.metadata` is modelled by the fields claims touch
(`count`, `cloud_fraction`); the remaining dict entries (`std`, `min`,
`max`, `scene_id`) play no role in any claim. -/

/-- The S2 SCL classes counted as cloud: shadow, medium/high-probability
cloud, cirrus — the default `scl_cloud_classes` of `extract_field_values`
and the fixed set of `_compute_cloud_pct_from_scl` /
`compute_ndvi_for_scene`. -/
def cloud_classes_default : List ℕ := [3, 8, 9, 10]

/-- A scene as seen by `extract_field_values`: acquisition date (whole
days), the requested band on the analysis grid, and the SCL band when the
scene's assets carry one. -/
structure SceneData where
  date : ℤ
  band : List (Option ℚ)
  scl : Option (List ℕ)

/-- One extracted observation (`TimeseriesPoint` named tuple). -/
structure TimeseriesPoint where
  date : ℤ
  value : ℚ
  count : ℕ
  cloud_fraction : Option ℚ
  deriving Repr, DecidableEq

/-- `np.mean(np.isin(scl[field_mask], classes))` — the fraction of
mask-interior pixels whose SCL class is cloud-like.  For an empty field
the numpy mean is NaN (`none`); the caller's `>` comparison on NaN is
`False`, which the `Option` match below reproduces. -/
def cloud_fraction_in_field (scl : List ℕ) (mask : List Bool)
    (classes : List ℕ) : Option ℚ :=
  let field_scl := masked_values scl mask
  if field_scl.length = 0 then none
  else some (((field_scl.countP fun c => classes.contains c : ℕ) : ℚ) /
    (field_scl.length : ℚ))

/-- Embedding of the per-scene body of `extract_field_values`
(`timeseries.py`): compute the in-field cloud fraction when an SCL band is
present (absent band ⇒ fraction stays `0.0`), drop the scene when the
fraction exceeds `max_cloud_fraction`, otherwise emit a point exactly when
the field statistics have a non-`None` mean.  `filterMap` realises
"rejected scenes produce no point". -/
noncomputable def extract_field_values (scenes : List SceneData)
    (field_mask : List Bool) (scl_cloud_classes : Option (List ℕ))
    (max_cloud_fraction : ℚ) : List TimeseriesPoint :=
  let classes := scl_cloud_classes.getD cloud_classes_default
  scenes.filterMap fun scene =>
    let cloud_fraction : Option ℚ :=
      match scene.scl with
      | some scl => cloud_fraction_in_field scl field_mask classes
      | none => some 0
    if (match cloud_fraction with
        | some f => decide (f > max_cloud_fraction)
        | none => false) then
      none
    else
      let stats := compute_field_statistics scene.band field_mask
        [10, 25, 50, 75, 90]
      match stats.mean with
      | some m => some ⟨scene.date, m, stats.count, cloud_fraction⟩
      | none => none

/-- A scene as seen by `compute_ndvi_for_scene`: RED (`B04`) and NIR
(`B08`) bands on the analysis grid, plus the optional SCL band. -/
structure NdviScene where
  date : ℤ
  red : List ℚ
  nir : List ℚ
  scl : Option (List ℕ)

/-- The per-pixel NDVI of `compute_ndvi_for_scene` (`timeseries.py`,
lines 305-311): `np.where((nir + red) != 0, (nir - red)/(nir + red),
np.nan)` — a zero denominator produces NaN (`none`), not `0`. -/
def ndvi_pixel (nir red : ℚ) : Option ℚ :=
  if nir + red ≠ 0 then some ((nir - red) / (nir + red)) else none

/-- Embedding of `compute_ndvi_for_scene` (`timeseries.py`): reject the
scene (`None`) when the in-field SCL cloud fraction exceeds `0.5`,
otherwise build the NDVI array with `ndvi_pixel` and emit a point exactly
when the field statistics have a non-`None` mean. -/
noncomputable def compute_ndvi_for_scene (scene : NdviScene)
    (field_mask : List Bool) : Option TimeseriesPoint :=
  let cloud_fraction : Option ℚ :=
    match scene.scl with
    | some scl => cloud_fraction_in_field scl field_mask cloud_classes_default
    | none => some 0
  if (match cloud_fraction with
      | some f => decide (f > 1 / 2)
      | none => false) then
    none
  else
    let ndvi := List.zipWith ndvi_pixel scene.nir scene.red
    let stats := compute_field_statistics ndvi field_mask
      [10, 25, 50, 75, 90]
    match stats.mean with
    | some m => some ⟨scene.date, m, stats.count, cloud_fraction⟩
    | none => none

/-! ## Phenology (`analysis/phenology.py`)

Dates are whole-day integers, matching the `.days` granularity of every
`datetime` subtraction in the source.  NDVI inputs may contain `None`/NaN
(`none : Option ℚ`). -/

/-- A detected growing season (the `Season` named tuple). -/
structure Season where
  start_date : ℤ
  peak_date : ℤ
  peak_ndvi : ℚ
  end_date : ℤ
  duration_days : ℤ
  health : String
  deriving DecidableEq

/-- Embedding of `classify_health` (`phenology.py`). -/
def classify_health (season : Season) : String :=
  if season.peak_ndvi > 7 / 10 ∧ season.duration_days > 150 then "excellent"
  else if season.peak_ndvi > 3 / 5 ∧ season.duration_days > 120 then "good"
  else if season.peak_ndvi > 2 / 5 ∧ season.duration_days > 90 then "moderate"
  else "poor"

/-- Largest index `j ≤ i` with a non-NaN entry, with its value (the left
neighbour `np.interp` interpolates from). -/
def prevKnown : List (Option ℚ) → ℕ → Option (ℕ × ℚ)
  | arr, 0 => (arr.getD 0 none).map fun v => (0, v)
  | arr, i + 1 =>
    match arr.getD (i + 1) none with
    | some v => some (i + 1, v)
    | none => prevKnown arr i

/-- Scan upward from `i` for the next non-NaN entry, with fuel. -/
def nextKnownAux : List (Option ℚ) → ℕ → ℕ → Option (ℕ × ℚ)
  | _, _, 0 => none
  | arr, i, fuel + 1 =>
    match arr.getD i none with
    | some v => some (i, v)
    | none => nextKnownAux arr (i + 1) fuel

/-- Smallest index `k ≥ i` with a non-NaN entry, with its value. -/
def nextKnown (arr : List (Option ℚ)) (i : ℕ) : Option (ℕ × ℚ) :=
  nextKnownAux arr i (arr.length - i)

/-- `np.interp` at one index: non-NaN entries are kept; NaN entries are
linearly interpolated between the neighbouring known samples, clamping to
the boundary value beyond the first/last known sample. -/
def interpAt (arr : List (Option ℚ)) (i : ℕ) : ℚ :=
  match arr.getD i none with
  | some v => v
  | none =>
    match prevKnown arr i, nextKnown arr i with
    | some jv, some kv =>
      jv.2 + ((i : ℚ) - (jv.1 : ℚ)) * (kv.2 - jv.2) / ((kv.1 : ℚ) - (jv.1 : ℚ))
    | some jv, none => jv.2
    | none, some kv => kv.2
    | none, none => 0

/-- The NaN-interpolation stage of `smooth_timeseries`
(`arr[nans] = np.interp(x[nans], x[~nans], arr[~nans])`). -/
def interpolate_nans (arr : List (Option ℚ)) : List ℚ :=
  (List.range arr.length).map (interpAt arr)

/-- `np.pad(arr, p, mode='edge')`: `p` copies of the first element in
front, `p` copies of the last behind. -/
def pad_edge (arr : List ℚ) (p : ℕ) : List ℚ :=
  match arr with
  | [] => []
  | a :: _ => List.replicate p a ++ arr ++ List.replicate p (arr.getLastD a)

/-- Mean of the length-`w` window of `arr` starting at `i`. -/
def window_mean (arr : List ℚ) (w : ℕ) (i : ℕ) : ℚ :=
  ((arr.drop i).take w).sum / (w : ℚ)

/-- `np.convolve(arr, np.ones(w)/w, mode='valid')` — the kernel is
symmetric, so convolution is the sliding window mean. -/
def convolve_uniform (arr : List ℚ) (w : ℕ) : List ℚ :=
  (List.range (arr.length + 1 - w)).map (window_mean arr w)

/-- Embedding of `smooth_timeseries` (`phenology.py`): empty input is
returned as-is, an all-NaN input is returned as-is, otherwise NaNs are
interpolated; input shorter than the window is returned un-smoothed, else
it is edge-padded by `window // 2` (with one trailing pad sample removed
for an even window) and convolved with the uniform kernel. -/
def smooth_timeseries (values : List (Option ℚ)) (window : ℕ) :
    List (Option ℚ) :=
  if values = [] then []
  else if values.all fun v => v.isNone then values
  else
    let arr := interpolate_nans values
    if arr.length < window then arr.map some
    else
      let pad_width := window / 2
      let padded0 := pad_edge arr pad_width
      let padded := if window % 2 = 0 then padded0.dropLast else padded0
      (convolve_uniform padded window).map some

/-- `np.argmax` scan: first index of the running maximum. -/
def argmaxAux : List ℚ → ℕ → ℕ → ℚ → ℕ
  | [], _, bi, _ => bi
  | x :: rest, i, bi, bv =>
    if x > bv then argmaxAux rest (i + 1) i x else argmaxAux rest (i + 1) bi bv

/-- `np.argmax`: index of the first occurrence of the maximum (0 on the
empty list, which numpy would reject). -/
def argmaxFirst : List ℚ → ℕ
  | [] => 0
  | x :: rest => argmaxAux rest 1 0 x

/-- Embedding of the `_create_season` helper inside `detect_seasons`:
build a `Season` from the inclusive index span `[start_idx, end_idx]`,
discarding spans shorter than `min_duration` days.  The slice
`smoothed[start_idx:end_idx+1]` supplies peak value (`np.max`) and peak
position (`np.argmax`, first occurrence). -/
def create_season (dates : List ℤ) (smoothed : List ℚ) (min_duration : ℤ)
    (start_idx end_idx : ℕ) : Option Season :=
  let season_slice := (smoothed.drop start_idx).take (end_idx + 1 - start_idx)
  let peak_val := listMax season_slice
  let peak_idx_rel := argmaxFirst season_slice
  let peak_idx_abs := start_idx + peak_idx_rel
  let start_date := dates.getD start_idx 0
  let end_date := dates.getD end_idx 0
  let peak_date := dates.getD peak_idx_abs 0
  let duration := end_date - start_date
  if duration < min_duration then none
  else
    let season : Season :=
      ⟨start_date, peak_date, peak_val, end_date, duration, "pending"⟩
    some { season with health := classify_health season }

/-- The `while lookback < i - season_start_idx` loop of the sharp-drop
check, with fuel `(i - season_start_idx) - lookback`: accumulate the gap
days walked over (`sum((dates[i-j] - dates[i-j-1]).days ...)`), stop before
exceeding `sharp_drop_days`. -/
def lookbackAux (dates : List ℤ) (i : ℕ) (sharp_drop_days : ℤ) :
    ℕ → ℕ → ℕ
  | lb, 0 => lb
  | lb, fuel + 1 =>
    let total_days := ((List.range lb).map fun j =>
      dates.getD (i - j) 0 - dates.getD (i - j - 1) 0).sum
    if total_days > sharp_drop_days then lb
    else lookbackAux dates i sharp_drop_days (lb + 1) fuel

/-- Entry point of the lookback loop: `lookback` starts at 1 and can grow
to at most `i - season_start_idx`. -/
def compute_lookback (dates : List ℤ) (i start_idx : ℕ)
    (sharp_drop_days : ℤ) : ℕ :=
  lookbackAux dates i sharp_drop_days 1 (i - start_idx - 1)

/-- One iteration of the `for i in range(1, len(smoothed_ndvi))` scan of
`detect_seasons`.  State: the open season's start index (if any) and the
seasons found so far.  Out of season: open one on an upward threshold
crossing.  In season: close on a downward crossing, or (for `i ≥ 2`) on a
sharp drop — the recent maximum over `smoothed[i-lookback:i]` exceeding
the current value by `sharp_drop` — appending the created season unless
the duration filter discards it. -/
def seasonStep (dates : List ℤ) (sm : List ℚ) (threshold sharp_drop : ℚ)
    (sharp_drop_days min_duration : ℤ) (st : Option ℕ × List Season)
    (i : ℕ) : Option ℕ × List Season :=
  let val := sm.getD i 0
  let prev_val := sm.getD (i - 1) 0
  match st.1 with
  | none =>
    if val ≥ threshold ∧ prev_val < threshold then (some i, st.2)
    else (none, st.2)
  | some s =>
    let is_end0 : Bool := decide (val < threshold)
    let is_end : Bool :=
      if !is_end0 && decide (2 ≤ i) then
        let lookback := compute_lookback dates i s sharp_drop_days
        let recent_max :=
          listMax ((sm.drop (i - lookback)).take (i - (i - lookback)))
        decide (0 < lookback) && decide (recent_max - val ≥ sharp_drop)
      else is_end0
    if is_end then
      match create_season dates sm min_duration s i with
      | some season => (none, st.2 ++ [season])
      | none => (none, st.2)
    else (some s, st.2)

/-- The scan stage of `detect_seasons`: the
`for i in range(1, len(smoothed_ndvi))` loop over the smoothed series
`sm`, followed by the closing of a still-open season at the last sample
when `close_unclosed` is set. -/
def season_scan (dates : List ℤ) (sm : List ℚ) (threshold sharp_drop : ℚ)
    (sharp_drop_days min_duration : ℤ) (close_unclosed : Bool) :
    List Season :=
  let final := (List.range' 1 (sm.length - 1)).foldl
    (seasonStep dates sm threshold sharp_drop sharp_drop_days min_duration)
    (none, [])
  match final.1 with
  | some s =>
    if close_unclosed then
      match create_season dates sm min_duration s (sm.length - 1) with
      | some season => final.2 ++ [season]
      | none => final.2
    else final.2
  | none => final.2

/-- Embedding of `detect_seasons` (`phenology.py`).  Empty or
length-mismatched inputs return `[]` at once.  The smoothed series
contains NaN only when the input was entirely NaN (`smooth_timeseries`
returns it unchanged then); in numpy every comparison against NaN is
`False`, so the scan can never open a season — we return `[]` directly in
that case and scan rational values otherwise. -/
def detect_seasons (dates : List ℤ) (ndvi_values : List (Option ℚ))
    (threshold sharp_drop : ℚ) (sharp_drop_days min_duration : ℤ)
    (close_unclosed : Bool) : List Season :=
  if dates = [] ∨ ndvi_values = [] ∨ dates.length ≠ ndvi_values.length then []
  else
    let smoothed := smooth_timeseries ndvi_values 5
    if smoothed.any fun v => v.isNone then []
    else
      season_scan dates (smoothed.map fun v => v.getD 0) threshold
        sharp_drop sharp_drop_days min_duration close_unclosed

end SatMon

namespace SatMon

theorem selectLoop_found {α : Type} (thr : ℚ) (items : List (α × ℚ))
    (best : Option (α × ℚ)) (p : α × ℚ)
    (hfind : items.find? (fun q => decide (q.2 ≤ thr)) = some p) :
    (selectLoop thr items best).1 = some p := by
  induction items generalizing best with
  | nil => simp [List.find?] at hfind
  | cons hd tl ih =>
    by_cases h : hd.2 ≤ thr
    · rw [List.find?_cons_of_pos _ (by simpa using h)] at hfind
      injection hfind with hfind
      subst hfind
      obtain ⟨a, c⟩ := hd
      simp only [selectLoop]
      rw [if_pos h]
    · rw [List.find?_cons_of_neg _ (by simpa using h)] at hfind
      obtain ⟨a, c⟩ := hd
      simp only [selectLoop]
      rw [if_neg h]
      exact ih _ hfind

theorem selectLoop_none_snd {α : Type} (thr : ℚ) (items : List (α × ℚ))
    (b : α × ℚ)
    (hfind : items.find? (fun q => decide (q.2 ≤ thr)) = none) :
    (selectLoop thr items (some b)).2 = some (firstMinAux items b) := by
  induction items generalizing b with
  | nil => simp [selectLoop, firstMinAux]
  | cons hd tl ih =>
    by_cases h : hd.2 ≤ thr
    · rw [List.find?_cons_of_pos _ (by simpa using h)] at hfind
      exact absurd hfind (by simp)
    · rw [List.find?_cons_of_neg _ (by simpa using h)] at hfind
      obtain ⟨a, c⟩ := hd
      simp only [selectLoop, firstMinAux]
      rw [if_neg h]
      by_cases hlt : c < b.2
      · simpa [hlt] using ih ⟨a, c⟩ hfind
      · simpa [hlt] using ih b hfind

theorem selectLoop_none_fst {α : Type} (thr : ℚ) (items : List (α × ℚ))
    (best : Option (α × ℚ))
    (hfind : items.find? (fun q => decide (q.2 ≤ thr)) = none) :
    (selectLoop thr items best).1 = none := by
  induction items generalizing best with
  | nil => simp [selectLoop]
  | cons hd tl ih =>
    by_cases h : hd.2 ≤ thr
    · rw [List.find?_cons_of_pos _ (by simpa using h)] at hfind
      exact absurd hfind (by simp)
    · rw [List.find?_cons_of_neg _ (by simpa using h)] at hfind
      obtain ⟨a, c⟩ := hd
      simp only [selectLoop]
      rw [if_neg h]
      exact ih _ hfind

/-- C1: the scene selector returns the first (most recent) candidate whose
cloud percentage is ≤ `thresholdPct`, and if no candidate meets the
threshold it returns the lowest-cloud candidate of the whole list
(first occurrence on ties, as the code's strict `<` update does).  In
particular, for cloud percentages `[35, 25, 9, 5]` it returns the 9 %
candidate at threshold 10 and the 5 % candidate at threshold 4. -/
theorem select_s2_first_acceptable_else_lowest :
    (∀ (thr : ℚ) (items : List (ℕ × ℚ)),
      (select_s2_item_with_cloud_threshold items thr).1 =
        (match items.find? (fun q => decide (q.2 ≤ thr)) with
         | some p => some p
         | none => firstMin items)) ∧
    (select_s2_item_with_cloud_threshold
        [(0, 35), (1, 25), (2, 9), (3, 5)] 10).1 = some (2, 9) ∧
    (select_s2_item_with_cloud_threshold
        [(0, 35), (1, 25), (2, 9), (3, 5)] 4).1 = some (3, 5) := by
  refine ⟨?_, by decide, by decide⟩
  intro thr items
  cases hf : items.find? (fun q => decide (q.2 ≤ thr)) with
  | some p =>
    simp only [select_s2_item_with_cloud_threshold]
    rw [selectLoop_found thr items none p hf]
  | none =>
    simp only [select_s2_item_with_cloud_threshold]
    rw [selectLoop_none_fst thr items none hf]
    cases items with
    | nil => simp [selectLoop, firstMin]
    | cons hd tl =>
      have h : ¬ hd.2 ≤ thr := by
        intro hle
        rw [List.find?_cons_of_pos _ (by simpa using hle)] at hf
        exact absurd hf (by simp)
      rw [List.find?_cons_of_neg _ (by simpa using h)] at hf
      obtain ⟨a, c⟩ := hd
      simp only [selectLoop, firstMin]
      rw [if_neg h]
      rw [selectLoop_none_snd thr tl ⟨a, c⟩ hf]

/-! ### Phenology guard behaviour (C10, C4) -/

/-- C10: `detect_seasons` returns `[]` (rather than raising) whenever the
dates list is empty, the values list is empty, or their lengths differ. -/
theorem detect_seasons_degenerate_input (dates : List ℤ)
    (ndvi_values : List (Option ℚ)) (threshold sharp_drop : ℚ)
    (sharp_drop_days min_duration : ℤ) (close_unclosed : Bool)
    (h : dates = [] ∨ ndvi_values = [] ∨
      dates.length ≠ ndvi_values.length) :
    detect_seasons dates ndvi_values threshold sharp_drop sharp_drop_days
      min_duration close_unclosed = [] := by
  unfold detect_seasons
  rw [if_pos h]

theorem detect_seasons_degenerate_input_witness :
    (([] : List ℤ) = [] ∨ ([some (1 : ℚ)] : List (Option ℚ)) = [] ∨
      ([] : List ℤ).length ≠ ([some (1 : ℚ)] : List (Option ℚ)).length) ∧
    detect_seasons [] [some (1 : ℚ)] (1/4) (1/5) 14 30 true = [] :=
  ⟨Or.inl rfl,
    detect_seasons_degenerate_input [] [some 1] (1/4) (1/5) 14 30 true
      (Or.inl rfl)⟩

/-- C4 counterexample: a four-sample input (shorter than the smoothing
window 5) on which `detect_seasons` returns a *nonempty* season list: the
series crosses the 0.25 threshold upward at the second sample and downward
at the last, spanning 40 ≥ 30 days, so a season is detected.  The claimed
unconditional empty result for short inputs is false. -/
theorem detect_seasons_short_input_counterexample :
    ([some (1/10), some (1/2), some (1/2), some (1/10)] :
      List (Option ℚ)).length < 5 ∧
    detect_seasons [0, 20, 40, 60]
      [some (1/10), some (1/2), some (1/2), some (1/10)]
      (1/4) (1/5) 14 30 true =
      [⟨20, 20, 1/2, 60, 40, "poor"⟩] := by
  exact ⟨by decide, by with_unfolding_all decide⟩

theorem interpolate_nans_length (values : List (Option ℚ)) :
    (interpolate_nans values).length = values.length := by
  simp [interpolate_nans]

/-- C4 amended: on an input shorter than the smoothing window that passes
the guards (nonempty, matching lengths, not all-NaN), `detect_seasons`
does not fail and does not necessarily return `[]`: smoothing degenerates
to the identity on the NaN-interpolated series and the season scan runs on
it directly, so seasons can be (and are, per the counterexample)
detected. -/
theorem detect_seasons_short_input_scans_raw (dates : List ℤ)
    (ndvi_values : List (Option ℚ)) (threshold sharp_drop : ℚ)
    (sharp_drop_days min_duration : ℤ) (close_unclosed : Bool)
    (hne : ¬(dates = [] ∨ ndvi_values = [] ∨
      dates.length ≠ ndvi_values.length))
    (hnan : (ndvi_values.all fun v => v.isNone) = false)
    (hshort : ndvi_values.length < 5) :
    detect_seasons dates ndvi_values threshold sharp_drop sharp_drop_days
      min_duration close_unclosed =
      season_scan dates (interpolate_nans ndvi_values) threshold sharp_drop
        sharp_drop_days min_duration close_unclosed := by
  have hvne : ndvi_values ≠ [] := by
    intro hv
    exact hne (Or.inr (Or.inl hv))
  have hsm : smooth_timeseries ndvi_values 5 =
      (interpolate_nans ndvi_values).map some := by
    unfold smooth_timeseries
    rw [if_neg hvne, if_neg (by simp [hnan]),
      if_pos (by rwa [interpolate_nans_length])]
  unfold detect_seasons
  rw [if_neg hne, hsm]
  have hany : (((interpolate_nans ndvi_values).map some).any
      fun v => v.isNone) = false := by
    simp [List.any_map, Function.comp]
  rw [if_neg (by simp [hany])]
  congr 1
  simp only [List.map_map]
  have hid : ((fun v : Option ℚ => v.getD 0) ∘ some) = id := funext fun x => rfl
  rw [hid, List.map_id]

theorem detect_seasons_short_input_scans_raw_witness :
    ¬(([0, 20, 40, 60] : List ℤ) = [] ∨
      ([some (1/10), some (1/2), some (1/2), some (1/10)] :
        List (Option ℚ)) = [] ∨
      ([0, 20, 40, 60] : List ℤ).length ≠
        ([some (1/10), some (1/2), some (1/2), some (1/10)] :
          List (Option ℚ)).length) ∧
    (([some (1/10), some (1/2), some (1/2), some (1/10)] :
      List (Option ℚ)).all fun v => v.isNone) = false ∧
    ([some (1/10), some (1/2), some (1/2), some (1/10)] :
      List (Option ℚ)).length < 5 ∧
    detect_seasons [0, 20, 40, 60]
      [some (1/10), some (1/2), some (1/2), some (1/10)]
      (1/4) (1/5) 14 30 true =
      season_scan [0, 20, 40, 60]
        (interpolate_nans [some (1/10), some (1/2), some (1/2), some (1/10)])
        (1/4) (1/5) 14 30 true :=
  ⟨by decide, by decide, by decide,
    detect_seasons_short_input_scans_raw [0, 20, 40, 60]
      [some (1/10), some (1/2), some (1/2), some (1/10)]
      (1/4) (1/5) 14 30 true (by decide) (by decide) (by decide)⟩

/-! ### Per-scene NDVI at a zero denominator (C2) -/

/-- C2 counterexample: in `compute_ndvi_for_scene` the pixel with
`NIR = RED = 0` has a zero denominator, and the computed NDVI there is NaN
(`none`), not `0`: `np.where((nir+red) != 0, ..., np.nan)` fills the
zero-denominator branch with `np.nan`.  The claimed zero value is false. -/
theorem ndvi_zero_denominator_counterexample :
    (0 : ℚ) + 0 = 0 ∧
    List.zipWith ndvi_pixel [(0 : ℚ)] [(0 : ℚ)] ≠ [some 0] ∧
    List.zipWith ndvi_pixel [(0 : ℚ)] [(0 : ℚ)] = [none] := by
  refine ⟨by norm_num, ?_, ?_⟩ <;> simp [ndvi_pixel]

/-- C2 amended: at every pixel whose denominator `NIR + RED` is exactly
zero, the per-scene NDVI of `compute_ndvi_for_scene` is NaN (`none`) —
such pixels are subsequently excluded from the field statistics rather
than contributing a zero — while the zero-on-zero-denominator rule the
spec describes holds for the `safe_div` helper used by `process_indices`
(`processing/indices.py`). -/
theorem ndvi_zero_denominator_is_nan (nir red : ℚ)
    (h : nir + red = 0) :
    ndvi_pixel nir red = none ∧ safe_div (nir - red) (nir + red) = 0 := by
  constructor
  · unfold ndvi_pixel
    rw [if_neg (by simp [h])]
  · unfold safe_div
    rw [if_neg (by simp [h])]

theorem ndvi_zero_denominator_is_nan_witness :
    (3 : ℚ) + (-3) = 0 ∧
    (ndvi_pixel 3 (-3) = none ∧ safe_div (3 - (-3)) (3 + (-3)) = 0) :=
  ⟨by norm_num, ndvi_zero_denominator_is_nan 3 (-3) (by norm_num)⟩

/-! ### Circular boundary creation (C5, C8) -/

/-- C5 counterexample: `create_circular_boundary` with the nonpositive
radius `-5` does **not** fail with a validation error — the source has no
radius check and no `raise`; it silently returns a boundary whose
properties record the invalid radius.  The claimed fail-fast behaviour is
false. -/
theorem circular_boundary_nonpositive_radius_counterexample :
    (create_circular_boundary 0 0 (-5) 16).isOk = true ∧
    (create_circular_boundary 0 0 (-5) 16).toOption.map
      (fun b => b.radius_m) = some (-5) :=
  ⟨rfl, rfl⟩

/-- C5 amended: `create_circular_boundary` performs no radius validation:
for every radius, including `r ≤ 0`, it returns a boundary (never an
error), recording the given radius and the analytic area
`π·r²/10000` in its properties. -/
theorem circular_boundary_never_fails (lat lon r : ℝ) (res : ℕ) :
    (create_circular_boundary lat lon r res).isOk = true ∧
    (create_circular_boundary lat lon r res).toOption.map
      (fun b => (b.radius_m, b.area_ha)) =
      some (r, Real.pi * r ^ 2 / 10000) :=
  ⟨rfl, rfl⟩

/-- C8: for every radius `r > 0` the returned boundary's `area_ha` equals
`π·r²/10000` exactly (floats idealised as reals), for every vertex-count
resolution of the polygon approximation — the area is computed
analytically, never from the ring. -/
theorem circular_boundary_area_analytic (lat lon r : ℝ) (res : ℕ)
    (h : 0 < r) :
    (create_circular_boundary lat lon r res).toOption.map
      (fun b => b.area_ha) = some (Real.pi * r ^ 2 / 10000) :=
  rfl

theorem circular_boundary_area_analytic_witness :
    (0 : ℝ) < 400 ∧
    (create_circular_boundary 0 0 400 16).toOption.map
      (fun b => b.area_ha) = some (Real.pi * 400 ^ 2 / 10000) :=
  ⟨by norm_num, circular_boundary_area_analytic 0 0 400 16 (by norm_num)⟩

/-! ### Field statistics (C6) -/

theorem length_valid_eq_countP (l : List (Option ℚ × Bool)) :
    ((l.filterMap fun p => if p.2 then some p.1 else none).filterMap id).length
      = l.countP fun p => p.2 && p.1.isSome := by
  induction l with
  | nil => simp
  | cons a t ih =>
    obtain ⟨v, m⟩ := a
    cases m <;> cases v <;>
      simp [List.filterMap_cons, List.countP_cons, ih]

theorem zip_flatten_replicate {α β : Type} (n : ℕ) (a : List α) (b : List β)
    (h : a.length = b.length) :
    ((List.replicate n a).flatten).zip ((List.replicate n b).flatten) =
      (List.replicate n (a.zip b)).flatten := by
  induction n with
  | zero => simp
  | succ m ih =>
    simp only [List.replicate_succ, List.flatten_cons]
    rw [List.zip_append h, ih]

theorem flatten_replicate_replicate {α : Type} (m k : ℕ) (v : α) :
    (List.replicate m (List.replicate k v)).flatten =
      List.replicate (m * k) v := by
  induction m with
  | zero => simp
  | succ m2 ih =>
    simp only [List.replicate_succ, List.flatten_cons, ih]
    rw [Nat.succ_mul, Nat.add_comm, ← List.replicate_add]

theorem example_rowA_count :
    List.countP (fun p : Option ℚ × Bool => p.2 && p.1.isSome)
      ((List.replicate 10 (none : Option ℚ) ++ List.replicate 90 (some 1)).zip
        (List.replicate 20 true ++ List.replicate 80 false)) = 10 := by
  have h1 : List.replicate 90 (some (1 : ℚ)) =
      List.replicate 10 (some (1 : ℚ)) ++ List.replicate 80 (some 1) :=
    List.replicate_add 10 80 (some 1)
  have h2 : List.replicate 20 true =
      List.replicate 10 true ++ List.replicate 10 true :=
    List.replicate_add 10 10 true
  rw [h1, h2, List.append_assoc]
  rw [List.zip_append (show (List.replicate 10 (none : Option ℚ)).length =
    (List.replicate 10 true).length by simp only [List.length_replicate])]
  rw [List.zip_append (show (List.replicate 10 (some (1 : ℚ))).length =
    (List.replicate 10 true).length by simp only [List.length_replicate])]
  rw [List.countP_append, List.countP_append]
  rw [List.zip_replicate, List.zip_replicate, List.zip_replicate]
  rw [List.countP_replicate, List.countP_replicate, List.countP_replicate]
  norm_num

theorem example_rowB_count :
    List.countP (fun p : Option ℚ × Bool => p.2 && p.1.isSome)
      ((List.replicate 100 (some (1 : ℚ))).zip
        (List.replicate 20 true ++ List.replicate 80 false)) = 20 := by
  have h1 : List.replicate 100 (some (1 : ℚ)) =
      List.replicate 20 (some (1 : ℚ)) ++ List.replicate 80 (some 1) :=
    List.replicate_add 20 80 (some 1)
  rw [h1]
  rw [List.zip_append (show (List.replicate 20 (some (1 : ℚ))).length =
    (List.replicate 20 true).length by simp only [List.length_replicate])]
  rw [List.countP_append]
  rw [List.zip_replicate, List.zip_replicate]
  rw [List.countP_replicate, List.countP_replicate]
  norm_num

theorem example_grid_count :
    ((example_data_100x100.zip example_mask_100x100).countP
      fun p => p.2 && p.1.isSome) = 300 := by
  have hsplit : example_mask_100x100 =
      ((List.replicate 10
        (List.replicate 20 true ++ List.replicate 80 false)).flatten)
      ++ (((List.replicate 10
        (List.replicate 20 true ++ List.replicate 80 false)).flatten)
        ++ List.replicate 8000 false) := by
    unfold example_mask_100x100
    rw [List.replicate_add 10 10
      (List.replicate 20 true ++ List.replicate 80 false),
      List.flatten_append, List.append_assoc]
  have hdata : example_data_100x100 =
      ((List.replicate 10 (List.replicate 10 (none : Option ℚ) ++
        List.replicate 90 (some 1))).flatten)
      ++ (((List.replicate 10 (List.replicate 100 (some (1 : ℚ)))).flatten)
        ++ List.replicate 8000 (some 1)) := by
    unfold example_data_100x100
    rw [flatten_replicate_replicate 10 100 (some (1 : ℚ))]
    rw [show (9000 : ℕ) = 1000 + 8000 by norm_num, List.replicate_add]
  rw [hsplit, hdata]
  rw [List.zip_append (by
    simp only [List.length_flatten, List.map_replicate, List.length_append,
      List.length_replicate, List.sum_replicate, smul_eq_mul])]
  rw [List.zip_append (by
    simp only [List.length_flatten, List.map_replicate, List.length_append,
      List.length_replicate, List.sum_replicate, smul_eq_mul])]
  rw [zip_flatten_replicate _ _ _
      (by simp only [List.length_append, List.length_replicate]),
    zip_flatten_replicate _ _ _
      (by simp only [List.length_append, List.length_replicate])]
  rw [List.countP_append, List.countP_append, List.countP_flatten,
    List.countP_flatten]
  rw [List.map_replicate, List.map_replicate, example_rowA_count,
    example_rowB_count]
  rw [List.zip_replicate, List.countP_replicate]
  rw [List.sum_replicate, List.sum_replicate]
  norm_num

/-- C6: `compute_field_statistics` counts exactly the pixels where the
mask is `True` and the value is not NaN; with zero such pixels it returns
the well-formed all-`None` record with `count = 0` (no error); in the
spec's worked example — a 100×100 array with a 20×20 `True` region of
which a 10×10 sub-block is NaN — the count is `400 − 100 = 300`. -/
theorem compute_field_statistics_count_spec :
    (∀ (data : List (Option ℚ)) (mask : List Bool) (ps : List ℚ),
      data.length = mask.length →
      (compute_field_statistics data mask ps).count =
        ((data.zip mask).countP fun p => p.2 && p.1.isSome)) ∧
    (∀ (data : List (Option ℚ)) (mask : List Bool) (ps : List ℚ),
      ((data.zip mask).countP fun p => p.2 && p.1.isSome) = 0 →
      compute_field_statistics data mask ps =
        { mean := none, std := none, min := none, max := none,
          median := none, count := 0, percentiles := [] }) ∧
    (compute_field_statistics example_data_100x100 example_mask_100x100
      [10, 25, 50, 75, 90]).count = 300 := by
  have hcount : ∀ (data : List (Option ℚ)) (mask : List Bool) (ps : List ℚ),
      (compute_field_statistics data mask ps).count =
        ((data.zip mask).countP fun p => p.2 && p.1.isSome) := by
    intro data mask ps
    unfold compute_field_statistics masked_values
    by_cases hv : (((data.zip mask).filterMap
        fun p => if p.2 then some p.1 else none).filterMap id).length = 0
    · rw [if_pos hv]
      rw [← length_valid_eq_countP, hv]
    · rw [if_neg hv]
      exact length_valid_eq_countP _
  refine ⟨fun data mask ps _ => hcount data mask ps, ?_, ?_⟩
  · intro data mask ps h0
    unfold compute_field_statistics masked_values
    rw [if_pos]
    rw [length_valid_eq_countP, h0]
  · rw [hcount]
    exact example_grid_count

theorem compute_field_statistics_count_spec_witness :
    (([some 2, none, some 3] : List (Option ℚ)).length =
      ([true, true, false] : List Bool).length ∧
      (compute_field_statistics [some 2, none, some 3] [true, true, false]
        [10, 25, 50, 75, 90]).count =
        ((([some 2, none, some 3] : List (Option ℚ)).zip
          ([true, true, false] : List Bool)).countP
          fun p => p.2 && p.1.isSome)) ∧
    (((([none] : List (Option ℚ)).zip ([true] : List Bool)).countP
        fun p => p.2 && p.1.isSome) = 0 ∧
      compute_field_statistics [none] [true] [10, 25, 50, 75, 90] =
        { mean := none, std := none, min := none, max := none,
          median := none, count := 0, percentiles := [] }) :=
  ⟨⟨rfl, compute_field_statistics_count_spec.1 [some 2, none, some 3]
      [true, true, false] [10, 25, 50, 75, 90] rfl⟩,
    ⟨rfl, compute_field_statistics_count_spec.2.1 [none] [true]
      [10, 25, 50, 75, 90] rfl⟩⟩

/-! ### Field masking (C7) -/

theorem getD_zipWith {α β γ : Type} (f : α → β → γ) (a : List α)
    (b : List β) (i : ℕ) (da : α) (db : β) (dc : γ)
    (hi : i < a.length) (hlen : a.length = b.length) :
    (List.zipWith f a b).getD i dc = f (a.getD i da) (b.getD i db) := by
  have hib : i < b.length := hlen ▸ hi
  have hiz : i < (List.zipWith f a b).length := by
    rw [List.length_zipWith]
    omega
  rw [List.getD_eq_getElem _ _ hiz, List.getD_eq_getElem _ _ hi,
    List.getD_eq_getElem _ _ hib, List.getElem_zipWith]

theorem headWidth_eq {α β : Type} (A : List (List α)) (B : List (List β))
    (w : ℕ) (hlen : A.length = B.length)
    (hA : ∀ r ∈ A, r.length = w) (hB : ∀ r ∈ B, r.length = w) :
    (A.head?.map List.length).getD 0 = (B.head?.map List.length).getD 0 := by
  cases A with
  | nil =>
    cases B with
    | nil => rfl
    | cons b bt => simp at hlen
  | cons a at' =>
    cases B with
    | nil => simp at hlen
    | cons b bt =>
      simp only [List.head?_cons, Option.map_some', Option.getD_some]
      rw [hA a (by simp), hB b (by simp)]

theorem getD_length_eq {α : Type} (A : List (List α)) (w i : ℕ)
    (hA : ∀ r ∈ A, r.length = w) (hi : i < A.length) :
    (A.getD i []).length = w := by
  rw [List.getD_eq_getElem _ _ hi]
  exact hA _ (List.getElem_mem hi)

/-- C7: `apply_field_mask` on a shape-matched single-band array returns
(without modifying its input — the embedding is pure, mirroring the
source's `data_array.copy()`) an array of the same shape in which every
pixel where the mask is `False` equals `fill_value` and every pixel where
the mask is `True` carries the original value; on a shape-matched
multi-band array the same holds with `fill_value` written across all
channels of an outside pixel; and on any array whose first two dimensions
differ from the mask's shape it fails with the shape-mismatch error. -/
theorem apply_field_mask_spec :
    (∀ (rows : List (List (Option ℚ))) (mask : List (List Bool))
      (fill : Option ℚ) (w : ℕ),
      rows.length = mask.length →
      (∀ r ∈ rows, r.length = w) →
      (∀ r ∈ mask, r.length = w) →
      ∃ out : List (List (Option ℚ)),
        apply_field_mask (.d2 rows) mask fill = .ok (.d2 out) ∧
        out.length = rows.length ∧
        (∀ i j, i < rows.length → j < w →
          (out.getD i []).getD j fill =
            if (mask.getD i []).getD j false
            then (rows.getD i []).getD j fill
            else fill)) ∧
    (∀ (rows : List (List (List (Option ℚ)))) (mask : List (List Bool))
      (fill : Option ℚ) (w : ℕ),
      rows.length = mask.length →
      (∀ r ∈ rows, r.length = w) →
      (∀ r ∈ mask, r.length = w) →
      ∃ out : List (List (List (Option ℚ))),
        apply_field_mask (.d3 rows) mask fill = .ok (.d3 out) ∧
        out.length = rows.length ∧
        (∀ i j, i < rows.length → j < w →
          (out.getD i []).getD j [] =
            if (mask.getD i []).getD j false
            then (rows.getD i []).getD j []
            else ((rows.getD i []).getD j []).map fun _ => fill)) ∧
    (∀ (data_array : NpArray) (mask : List (List Bool)) (fill : Option ℚ),
      data_array.shape2 ≠ maskShape mask →
      apply_field_mask data_array mask fill = .error "Shape mismatch") := by
  refine ⟨?_, ?_, ?_⟩
  · intro rows mask fill w hlen hA hB
    have hshape : NpArray.shape2 (.d2 rows) = maskShape mask := by
      unfold NpArray.shape2 maskShape
      exact Prod.ext hlen (headWidth_eq rows mask w hlen hA hB)
    refine ⟨List.zipWith
      (fun row mrow => List.zipWith
        (fun v m => if m then v else fill) row mrow) rows mask,
      ?_, ?_, ?_⟩
    · unfold apply_field_mask
      rw [if_neg (by simp [hshape])]
    · rw [List.length_zipWith, hlen, min_self]
    · intro i j hi hj
      rw [getD_zipWith _ rows mask i [] [] [] hi hlen]
      exact getD_zipWith _ _ _ j fill false fill
        (by rw [getD_length_eq rows w i hA hi]; exact hj)
        (by rw [getD_length_eq rows w i hA hi,
          getD_length_eq mask w i hB (hlen ▸ hi)])
  · intro rows mask fill w hlen hA hB
    have hshape : NpArray.shape2 (.d3 rows) = maskShape mask := by
      unfold NpArray.shape2 maskShape
      exact Prod.ext hlen (headWidth_eq rows mask w hlen hA hB)
    refine ⟨List.zipWith
      (fun row mrow => List.zipWith
        (fun cell m => if m then cell else cell.map fun _ => fill) row mrow)
      rows mask,
      ?_, ?_, ?_⟩
    · unfold apply_field_mask
      rw [if_neg (by simp [hshape])]
    · rw [List.length_zipWith, hlen, min_self]
    · intro i j hi hj
      rw [getD_zipWith _ rows mask i [] [] [] hi hlen]
      exact getD_zipWith _ _ _ j [] false []
        (by rw [getD_length_eq rows w i hA hi]; exact hj)
        (by rw [getD_length_eq rows w i hA hi,
          getD_length_eq mask w i hB (hlen ▸ hi)])
  · intro data_array mask fill hne
    unfold apply_field_mask
    rw [if_pos hne]

theorem apply_field_mask_spec_witness :
    (([[some 1, some 2], [some 3, some 4]] :
        List (List (Option ℚ))).length =
      ([[true, false], [false, true]] : List (List Bool)).length ∧
      (∀ r ∈ ([[some 1, some 2], [some 3, some 4]] :
        List (List (Option ℚ))), r.length = 2) ∧
      (∀ r ∈ ([[true, false], [false, true]] : List (List Bool)),
        r.length = 2) ∧
      ∃ out : List (List (Option ℚ)),
        apply_field_mask (.d2 [[some 1, some 2], [some 3, some 4]])
          [[true, false], [false, true]] none = .ok (.d2 out) ∧
        out.length = 2 ∧
        (out.getD 0 []).getD 1 none = none ∧
        (out.getD 0 []).getD 0 none = some 1) ∧
    (NpArray.shape2 (.d2 [[some (5 : ℚ)]]) ≠
        maskShape [[true, false], [false, true]] ∧
      apply_field_mask (.d2 [[some (5 : ℚ)]])
        [[true, false], [false, true]] none = .error "Shape mismatch") := by
  have h2 := apply_field_mask_spec.1 [[some 1, some 2], [some 3, some 4]]
    [[true, false], [false, true]] none 2 rfl
    (by intro r hr; simp at hr; rcases hr with h | h <;> simp [h])
    (by intro r hr; simp at hr; rcases hr with h | h <;> simp [h])
  obtain ⟨out, hok, holen, hpt⟩ := h2
  refine ⟨⟨rfl, ?_, ?_, out, hok, holen, ?_, ?_⟩, ?_, ?_⟩
  · intro r hr
    simp at hr
    rcases hr with h | h <;> simp [h]
  · intro r hr
    simp at hr
    rcases hr with h | h <;> simp [h]
  · have := hpt 0 1 (by norm_num) (by norm_num)
    simpa using this
  · have := hpt 0 0 (by norm_num) (by norm_num)
    simpa using this
  · decide
  · exact apply_field_mask_spec.2.2 (.d2 [[some (5 : ℚ)]])
      [[true, false], [false, true]] none (by decide)

/-! ### Cloud gating in the temporal extractor (C3) -/

/-- C3: `extract_field_values` computes the cloud fraction only over
mask-interior pixels (a function of `scl[field_mask]` alone), with the
default cloud-like class set `{3, 8, 9, 10}` when none is supplied; a
scene carrying an SCL band whose in-field cloud fraction strictly exceeds
`max_cloud_fraction` contributes no `TimeseriesPoint` — the output over
the scene list with it equals the output with it removed, so processing
continues with the remaining scenes. -/
theorem extract_field_values_skips_cloudy :
    (∀ (pre post : List SceneData) (s : SceneData) (mask : List Bool)
      (classes? : Option (List ℕ)) (maxCF : ℚ) (scl : List ℕ) (f : ℚ),
      s.scl = some scl →
      cloud_fraction_in_field scl mask
        (classes?.getD cloud_classes_default) = some f →
      f > maxCF →
      extract_field_values (pre ++ s :: post) mask classes? maxCF =
        extract_field_values (pre ++ post) mask classes? maxCF) ∧
    (∀ (scl scl' : List ℕ) (mask : List Bool) (classes : List ℕ),
      masked_values scl mask = masked_values scl' mask →
      cloud_fraction_in_field scl mask classes =
        cloud_fraction_in_field scl' mask classes) ∧
    (∀ (scenes : List SceneData) (mask : List Bool) (maxCF : ℚ),
      extract_field_values scenes mask none maxCF =
        extract_field_values scenes mask (some [3, 8, 9, 10]) maxCF) := by
  refine ⟨?_, ?_, ?_⟩
  · intro pre post s mask classes? maxCF scl f hscl hcf hgt
    unfold extract_field_values
    rw [List.filterMap_append, List.filterMap_append, List.filterMap_cons]
    simp only [hscl, hcf]
    rw [if_pos (by simpa using hgt)]
  · intro scl scl' mask classes h
    unfold cloud_fraction_in_field
    rw [h]
  · intro scenes mask maxCF
    rfl

theorem extract_field_values_skips_cloudy_witness :
    (⟨5, [some 2, some 3, some 4], some [9, 1, 9]⟩ : SceneData).scl =
      some [9, 1, 9] ∧
    cloud_fraction_in_field [9, 1, 9] [true, true, false]
      ((none : Option (List ℕ)).getD cloud_classes_default) =
      some (1 / 2) ∧
    (1 / 2 : ℚ) > 3 / 10 ∧
    extract_field_values
      ([] ++ (⟨5, [some 2, some 3, some 4], some [9, 1, 9]⟩ :
        SceneData) :: []) [true, true, false] none (3 / 10) =
      extract_field_values ([] ++ []) [true, true, false] none (3 / 10) :=
  ⟨rfl, by with_unfolding_all decide, by norm_num,
    extract_field_values_skips_cloudy.1 [] [] _ [true, true, false] none
      (3 / 10) [9, 1, 9] (1 / 2) rfl (by with_unfolding_all decide)
      (by norm_num)⟩

/-! ### Season invariants (C9) -/

theorem pad_edge_length (arr : List ℚ) (p : ℕ) (h : arr ≠ []) :
    (pad_edge arr p).length = arr.length + 2 * p := by
  match arr with
  | [] => exact absurd rfl h
  | a :: t =>
    simp only [pad_edge, List.length_append, List.length_replicate,
      List.length_cons]
    ring

theorem convolve_uniform_length (arr : List ℚ) (w : ℕ) :
    (convolve_uniform arr w).length = arr.length + 1 - w := by
  simp [convolve_uniform]

theorem smooth_timeseries_length (values : List (Option ℚ)) :
    (smooth_timeseries values 5).length = values.length := by
  unfold smooth_timeseries
  by_cases hnil : values = []
  · rw [if_pos hnil, hnil]
  · rw [if_neg hnil]
    by_cases hall : values.all fun v => v.isNone
    · rw [if_pos hall]
    · rw [if_neg hall]
      simp only
      by_cases hlen : (interpolate_nans values).length < 5
      · rw [if_pos hlen]
        simp [interpolate_nans_length]
      · rw [if_neg hlen]
        simp only [if_neg (by norm_num : ¬(5 : ℕ) % 2 = 0)]
        rw [List.length_map, convolve_uniform_length,
          pad_edge_length _ _ (by
            intro hI
            rw [hI] at hlen
            simp at hlen)]
        rw [interpolate_nans_length] at hlen ⊢
        omega

theorem argmaxAux_lt (rest : List ℚ) (i bi : ℕ) (bv : ℚ)
    (h : bi < i) : argmaxAux rest i bi bv < i + rest.length := by
  induction rest generalizing i bi bv with
  | nil => simpa using h
  | cons x r ih =>
    simp only [argmaxAux]
    by_cases hx : x > bv
    · rw [if_pos hx]
      have := ih (i + 1) i x (Nat.lt_succ_self i)
      simp only [List.length_cons]
      omega
    · rw [if_neg hx]
      have := ih (i + 1) bi bv (Nat.lt_succ_of_lt h)
      simp only [List.length_cons]
      omega

theorem argmaxFirst_lt_length (l : List ℚ) (h : l ≠ []) :
    argmaxFirst l < l.length := by
  match l with
  | [] => exact absurd rfl h
  | x :: rest =>
    simp only [argmaxFirst, List.length_cons]
    have := argmaxAux_lt rest 1 0 x (by norm_num)
    omega

theorem sorted_getD_mono (l : List ℤ) (h : l.Sorted (· ≤ ·)) (i j : ℕ)
    (hij : i ≤ j) (hj : j < l.length) : l.getD i 0 ≤ l.getD j 0 := by
  rw [List.getD_eq_getElem _ _ (lt_of_le_of_lt hij hj),
    List.getD_eq_getElem _ _ hj]
  rcases eq_or_lt_of_le hij with rfl | hlt
  · exact le_refl _
  · exact List.Sorted.rel_get_of_lt h (by simpa using hlt)

/-- What a successfully created season looks like: its dates come from the
span's endpoints and (first-occurrence) argmax, its duration is the
end-minus-start day difference and passed the `min_duration` filter, and
its peak is the maximum of the smoothed slice. -/
theorem create_season_spec (dates : List ℤ) (sm : List ℚ)
    (min_duration : ℤ) (s e : ℕ) (season : Season)
    (hse : s ≤ e) (he : e < sm.length) (hed : e < dates.length)
    (hsorted : dates.Sorted (· ≤ ·))
    (hcs : create_season dates sm min_duration s e = some season) :
    season.start_date = dates.getD s 0 ∧
    season.end_date = dates.getD e 0 ∧
    season.start_date ≤ season.peak_date ∧
    season.peak_date ≤ season.end_date ∧
    season.duration_days = season.end_date - season.start_date ∧
    min_duration ≤ season.duration_days ∧
    season.peak_ndvi = listMax ((sm.drop s).take (e + 1 - s)) := by
  unfold create_season at hcs
  simp only at hcs
  split at hcs
  · exact absurd hcs (by simp)
  · rename_i hdur
    injection hcs with hcs
    subst hcs
    have hslice_len : ((sm.drop s).take (e + 1 - s)).length = e + 1 - s := by
      rw [List.length_take, List.length_drop]
      omega
    have hslice_ne : (sm.drop s).take (e + 1 - s) ≠ [] := by
      intro hsl
      rw [hsl] at hslice_len
      simp at hslice_len
      omega
    have hrel := argmaxFirst_lt_length _ hslice_ne
    rw [hslice_len] at hrel
    have hpk_le : s + argmaxFirst ((sm.drop s).take (e + 1 - s)) ≤ e := by
      omega
    refine ⟨rfl, rfl, ?_, ?_, rfl, by push_neg at hdur; exact hdur, rfl⟩
    · exact sorted_getD_mono dates hsorted s
        (s + argmaxFirst ((sm.drop s).take (e + 1 - s)))
        (Nat.le_add_right s _) (lt_of_le_of_lt hpk_le hed)
    · exact sorted_getD_mono dates hsorted
        (s + argmaxFirst ((sm.drop s).take (e + 1 - s))) e hpk_le hed

theorem seasonStep_preserves (dates : List ℤ) (sm : List ℚ)
    (threshold sharp_drop : ℚ) (sharp_drop_days min_duration : ℤ)
    (j : ℕ) (stp : Option ℕ) (accp : List Season)
    (hacc : ∀ se ∈ accp, ∃ s e, s ≤ e ∧ e < sm.length ∧
      create_season dates sm min_duration s e = some se)
    (hst : ∀ s, stp = some s → s < j) (hj : j < sm.length) :
    (∀ se ∈ (seasonStep dates sm threshold sharp_drop sharp_drop_days
        min_duration (stp, accp) j).2,
      ∃ s e, s ≤ e ∧ e < sm.length ∧
        create_season dates sm min_duration s e = some se) ∧
    (∀ s, (seasonStep dates sm threshold sharp_drop sharp_drop_days
        min_duration (stp, accp) j).1 = some s → s < j + 1) := by
  cases stp with
  | none =>
    simp only [seasonStep]
    by_cases hcond : sm.getD j 0 ≥ threshold ∧ sm.getD (j - 1) 0 < threshold
    · rw [if_pos hcond]
      exact ⟨hacc, by
        intro s hs
        injection hs with hs
        omega⟩
    · rw [if_neg hcond]
      exact ⟨hacc, by intro s hs; exact absurd hs (by simp)⟩
  | some s0 =>
    have hs0 : s0 < j := hst s0 rfl
    have hnew : ∀ season,
        create_season dates sm min_duration s0 j = some season →
        (∀ se ∈ (none (α := ℕ), accp ++ [season]).2,
          ∃ s e, s ≤ e ∧ e < sm.length ∧
            create_season dates sm min_duration s e = some se) ∧
        (∀ s, (none (α := ℕ), accp ++ [season]).1 = some s → s < j + 1) := by
      intro season hcs
      refine ⟨?_, by intro s hs; exact absurd hs (by simp)⟩
      intro se hse
      dsimp only at hse
      rw [List.mem_append] at hse
      rcases hse with hse | hse
      · exact hacc se hse
      · rw [List.mem_singleton] at hse
        subst hse
        exact ⟨s0, j, le_of_lt hs0, hj, hcs⟩
    have hkeep :
        (∀ se ∈ (some s0, accp).2,
          ∃ s e, s ≤ e ∧ e < sm.length ∧
            create_season dates sm min_duration s e = some se) ∧
        (∀ s, (some s0, accp).1 = some s → s < j + 1) := by
      refine ⟨hacc, ?_⟩
      intro s hs
      dsimp only at hs
      injection hs with hs
      omega
    have hdrop :
        (∀ se ∈ (none (α := ℕ), accp).2,
          ∃ s e, s ≤ e ∧ e < sm.length ∧
            create_season dates sm min_duration s e = some se) ∧
        (∀ s, (none (α := ℕ), accp).1 = some s → s < j + 1) :=
      ⟨hacc, by intro s hs; exact absurd hs (by simp)⟩
    simp only [seasonStep]
    split
    · split
      · split
        · rename_i season hcs
          exact hnew season hcs
        · exact hdrop
      · exact hkeep
    · split
      · split
        · rename_i season hcs
          exact hnew season hcs
        · exact hdrop
      · exact hkeep

theorem season_scan_foldl_inv (dates : List ℤ) (sm : List ℚ)
    (threshold sharp_drop : ℚ) (sharp_drop_days min_duration : ℤ)
    (k : ℕ) :
    ∀ (j : ℕ) (st : Option ℕ) (acc : List Season),
      j + k ≤ sm.length →
      (∀ se ∈ acc, ∃ s e, s ≤ e ∧ e < sm.length ∧
        create_season dates sm min_duration s e = some se) →
      (∀ s, st = some s → s < j) →
      (∀ se ∈ ((List.range' j k).foldl
          (seasonStep dates sm threshold sharp_drop sharp_drop_days
            min_duration) (st, acc)).2,
        ∃ s e, s ≤ e ∧ e < sm.length ∧
          create_season dates sm min_duration s e = some se) ∧
      (∀ s, ((List.range' j k).foldl
          (seasonStep dates sm threshold sharp_drop sharp_drop_days
            min_duration) (st, acc)).1 = some s → s < j + k) := by
  induction k with
  | zero =>
    intro j st acc hjk hacc hst
    simpa using ⟨hacc, hst⟩
  | succ k ih =>
    intro j st acc hjk hacc hst
    rw [List.range'_succ, List.foldl_cons]
    have hj : j < sm.length := by omega
    have hs := seasonStep_preserves dates sm threshold sharp_drop
      sharp_drop_days min_duration j st acc hacc hst hj
    have hmain := ih (j + 1)
      (seasonStep dates sm threshold sharp_drop sharp_drop_days
        min_duration (st, acc) j).1
      (seasonStep dates sm threshold sharp_drop sharp_drop_days
        min_duration (st, acc) j).2
      (by omega) hs.1 hs.2
    constructor
    · intro se hse
      exact hmain.1 se (by simpa using hse)
    · intro s hsome
      have := hmain.2 s (by simpa using hsome)
      omega

theorem season_scan_mem (dates : List ℤ) (sm : List ℚ)
    (threshold sharp_drop : ℚ) (sharp_drop_days min_duration : ℤ)
    (close_unclosed : Bool) (se : Season)
    (hmem : se ∈ season_scan dates sm threshold sharp_drop sharp_drop_days
      min_duration close_unclosed) :
    ∃ s e, s ≤ e ∧ e < sm.length ∧
      create_season dates sm min_duration s e = some se := by
  by_cases hsm : sm.length = 0
  · exfalso
    unfold season_scan at hmem
    rw [hsm] at hmem
    simp at hmem
  · have hinv := season_scan_foldl_inv dates sm threshold sharp_drop
      sharp_drop_days min_duration (sm.length - 1) 1 none []
      (by omega) (by simp) (by simp)
    unfold season_scan at hmem
    dsimp only at hmem
    rcases hfinal : ((List.range' 1 (sm.length - 1)).foldl
        (seasonStep dates sm threshold sharp_drop sharp_drop_days
          min_duration) (none, [])).1 with _ | s
    · rw [hfinal] at hmem
      exact hinv.1 se hmem
    · have hslt : s < sm.length := by
        have := hinv.2 s hfinal
        omega
      rw [hfinal] at hmem
      dsimp only at hmem
      by_cases hclose : close_unclosed
      · rw [if_pos hclose] at hmem
        rcases hcs : create_season dates sm min_duration s (sm.length - 1)
          with _ | season
        · rw [hcs] at hmem
          exact hinv.1 se hmem
        · rw [hcs] at hmem
          rw [List.mem_append] at hmem
          rcases hmem with hmem | hmem
          · exact hinv.1 se hmem
          · rw [List.mem_singleton] at hmem
            subst hmem
            exact ⟨s, sm.length - 1, by omega, by omega, hcs⟩
      · rw [if_neg hclose] at hmem
        exact hinv.1 se hmem

/-- C9: every `Season` returned by `detect_seasons` on chronologically
sorted dates satisfies `start_date ≤ peak_date ≤ end_date`, has
`duration_days` equal to the day difference `end_date − start_date` with
`duration_days ≥ min_duration`, and has `peak_ndvi` equal to the maximum
of the smoothed series over the season's index span `[s, e]`, whose
endpoints supply `start_date` and `end_date`. -/
theorem detect_seasons_invariants (dates : List ℤ)
    (ndvi_values : List (Option ℚ)) (threshold sharp_drop : ℚ)
    (sharp_drop_days min_duration : ℤ) (close_unclosed : Bool)
    (hsorted : dates.Sorted (· ≤ ·)) :
    ∀ season ∈ detect_seasons dates ndvi_values threshold sharp_drop
      sharp_drop_days min_duration close_unclosed,
      season.start_date ≤ season.peak_date ∧
      season.peak_date ≤ season.end_date ∧
      season.duration_days = season.end_date - season.start_date ∧
      min_duration ≤ season.duration_days ∧
      ∃ s e, s ≤ e ∧ e < (smooth_timeseries ndvi_values 5).length ∧
        season.start_date = dates.getD s 0 ∧
        season.end_date = dates.getD e 0 ∧
        season.peak_ndvi = listMax
          ((((smooth_timeseries ndvi_values 5).map fun v =>
            v.getD 0).drop s).take (e + 1 - s)) := by
  intro season hmem
  unfold detect_seasons at hmem
  split at hmem
  · simp at hmem
  · rename_i hguard
    dsimp only at hmem
    split at hmem
    · simp at hmem
    · set sm : List ℚ :=
        (smooth_timeseries ndvi_values 5).map fun v => v.getD 0 with hsmdef
      have hQ := season_scan_mem dates sm
        threshold sharp_drop sharp_drop_days min_duration close_unclosed
        season hmem
      obtain ⟨s, e, hse, he, hcs⟩ := hQ
      have hdlen : dates.length = ndvi_values.length := by
        push_neg at hguard
        exact hguard.2.2
      have hsm_len : sm.length = ndvi_values.length := by
        rw [hsmdef, List.length_map, smooth_timeseries_length]
      have hed : e < dates.length := by
        rw [hdlen, ← hsm_len]
        exact he
      have hspec := create_season_spec dates sm
        min_duration s e season hse he hed hsorted hcs
      refine ⟨hspec.2.2.1, hspec.2.2.2.1, hspec.2.2.2.2.1,
        hspec.2.2.2.2.2.1, s, e, hse, ?_, hspec.1, hspec.2.1,
        hspec.2.2.2.2.2.2⟩
      rw [smooth_timeseries_length]
      omega

theorem detect_seasons_invariants_witness :
    ([0, 20, 40, 60] : List ℤ).Sorted (· ≤ ·) ∧
    (∀ season ∈ detect_seasons [0, 20, 40, 60]
      [some 0, some 2, some 2, some 0] 1 1 14 30 true,
      season.start_date ≤ season.peak_date ∧
      season.peak_date ≤ season.end_date ∧
      season.duration_days = season.end_date - season.start_date ∧
      (30 : ℤ) ≤ season.duration_days ∧
      ∃ s e, s ≤ e ∧
        e < (smooth_timeseries [some 0, some 2, some 2, some 0] 5).length ∧
        season.start_date = ([0, 20, 40, 60] : List ℤ).getD s 0 ∧
        season.end_date = ([0, 20, 40, 60] : List ℤ).getD e 0 ∧
        season.peak_ndvi = listMax
          ((((smooth_timeseries [some 0, some 2, some 2, some 0] 5).map
            fun v => v.getD 0).drop s).take (e + 1 - s))) :=
  ⟨by decide,
    detect_seasons_invariants [0, 20, 40, 60]
      [some 0, some 2, some 2, some 0] 1 1 14 30 true (by decide)⟩

end SatMon
